import Mathlib

/-!
Verification of the indoor-air-quality dashboard core
(`src/air_quality_app.py`): threshold classification, building-name
extraction, building matching, per-pollutant aggregation, the
health-advisory scan, and the CSV export/reload pipeline.

Numeric readings are modelled as exact rationals (`ℚ`): the Python code
only compares readings against threshold constants and averages them,
and every classification decision depends only on the linear order of
the values, which `ℚ` models faithfully.  Status tiers and icons are
kept as the exact strings the source returns.
-/

namespace AirQuality

/-- One entry of `AIR_QUALITY_STANDARDS`: display unit, the three
ascending thresholds `good`, `moderate`, `bad`, and the display name,
exactly as in the Python dict literal (lines 18-75). -/
structure Standard where
  unit : String
  good : ℚ
  moderate : ℚ
  bad : ℚ
  name : String
deriving DecidableEq

/-- The static threshold table `AIR_QUALITY_STANDARDS`
(src/air_quality_app.py lines 18-75), as an association list keyed by
the Korean pollutant name, in source order.  The source's decimal
literals 0.03, 0.05, 0.10 are written as the exact fractions they
denote. -/
def AIR_QUALITY_STANDARDS : List (String × Standard) :=
  [ ("미세먼지", ⟨"μg/m³", 30, 80, 150, "미세먼지(PM10)"⟩)
  , ("초미세먼지", ⟨"μg/m³", 15, 35, 75, "초미세먼지(PM2.5)"⟩)
  , ("이산화탄소", ⟨"ppm", 450, 700, 1000, "이산화탄소(CO₂)"⟩)
  , ("폼알데하이드", ⟨"μg/m³", 60, 100, 210, "폼알데하이드(HCHO)"⟩)
  , ("일산화탄소", ⟨"ppm", 5, 10, 25, "일산화탄소(CO)"⟩)
  , ("이산화질소", ⟨"ppm", mkRat 3 100, mkRat 5 100, mkRat 10 100, "이산화질소(NO₂)"⟩)
  , ("라돈", ⟨"Bq/m³", 100, 148, 200, "라돈(Rn)"⟩)
  , ("총휘발성유기화합물", ⟨"μg/m³", 400, 500, 1000, "TVOC"⟩) ]

/-- Membership test `pollutant in AIR_QUALITY_STANDARDS` together with
the dict access `AIR_QUALITY_STANDARDS[pollutant]`. -/
def lookupStd (pollutant : String) : Option Standard :=
  List.lookup pollutant AIR_QUALITY_STANDARDS

/-- `get_air_quality_status(value, pollutant)` (lines 96-110): returns
the (status, icon) string pair by inclusive-upper-bound comparison
against the pollutant's thresholds, or the Unknown pair
("알 수 없음", "⚪") for an unrecognized pollutant key. -/
def get_air_quality_status (value : ℚ) (pollutant : String) : String × String :=
  match lookupStd pollutant with
  | none => ("알 수 없음", "⚪")
  | some standards =>
    if value ≤ standards.good then ("좋음", "🟢")
    else if value ≤ standards.moderate then ("보통", "🟡")
    else if value ≤ standards.bad then ("나쁨", "🟠")
    else ("매우 나쁨", "🔴")

/-- The threshold triples exactly as §4.1 of the spec tabulates them
(spec keys PM10, PM2.5, CO2, HCHO, CO, NO2, Radon, TVOC correspond in
order to the Korean source keys). -/
def specThresholds : List (String × (ℚ × ℚ × ℚ)) :=
  [ ("미세먼지", (30, 80, 150))
  , ("초미세먼지", (15, 35, 75))
  , ("이산화탄소", (450, 700, 1000))
  , ("폼알데하이드", (60, 100, 210))
  , ("일산화탄소", (5, 10, 25))
  , ("이산화질소", (mkRat 3 100, mkRat 5 100, mkRat 10 100))
  , ("라돈", (100, 148, 200))
  , ("총휘발성유기화합물", (400, 500, 1000)) ]

/-! ## Building-name extraction (`extract_building_name`, lines 91-93)

`location.rsplit('-', 1)[0].strip()`: take everything before the last
hyphen (the whole string when there is none) and strip surrounding
whitespace.  Modelled on `List Char` and wrapped for `String`. -/

/-- Python `str.strip()` removes leading and trailing whitespace. -/
def stripL (l : List Char) : List Char :=
  ((l.dropWhile Char.isWhitespace).reverse.dropWhile Char.isWhitespace).reverse

/-- `location.rsplit('-', 1)[0]`: the segment before the last hyphen,
or the whole list when no hyphen occurs. -/
def rsplitPrefixL (l : List Char) : List Char :=
  match l.reverse.dropWhile (fun c => c != '-') with
  | [] => l
  | _ :: rest => rest.reverse

/-- `extract_building_name` on `List Char`. -/
def extractL (l : List Char) : List Char :=
  stripL (rsplitPrefixL l)

/-- `extract_building_name(location)` (lines 91-93). -/
def extract_building_name (location : String) : String :=
  ⟨extractL location.data⟩

/-! ## Matcher (lines 261-267)

`df[df['건물명'].str.contains(selected_building, case=False, na=False)]`,
gated by `search_button and selected_building and
selected_building != "선택하세요"`.

pandas `str.contains` defaults to `regex=True`, i.e. Python
`re.search(pattern, name, re.IGNORECASE)`.  The regex engine is
modelled for patterns made of literal characters and the
single-character wildcard; case-insensitivity is modelled by
lower-casing both sides (inputs here are hyphenated site labels without
newlines, so the wildcard-excludes-newline subtlety does not arise). -/

/-- Lower-case every character (model of `re.IGNORECASE`). -/
def lowerL (l : List Char) : List Char := l.map Char.toLower

/-- Regex characters that Python treats specially; a pattern free of
these matches purely literally. -/
def isRegexMeta (c : Char) : Bool :=
  ['.', '^', '$', '*', '+', '?', '\x7b', '\x7d', '[', ']', '\\', '|', '(', ')'].contains c

/-- Match the pattern against a prefix of the text: a dot matches any
single character, any other pattern character matches itself. -/
def matchAt : List Char → List Char → Bool
  | [], _ => true
  | _ :: _, [] => false
  | p :: ps, c :: cs => (p == '.' || p == c) && matchAt ps cs

/-- `re.search`: try `matchAt` at every start position. -/
def reSearch (ps : List Char) : List Char → Bool
  | [] => matchAt ps []
  | c :: cs => matchAt ps (c :: cs) || reSearch ps cs

/-- One measurement row: the raw site label `측정지점` and the
per-pollutant readings keyed by column name, `none` marking an absent
(NaN) cell. -/
structure Row where
  site : String
  vals : List (String × Option ℚ)
deriving DecidableEq

/-- The derived `건물명` column (line 194). -/
def buildingName (r : Row) : String :=
  extract_building_name r.site

/-- The per-row test of line 263: case-insensitive regex search of the
query inside the derived building name. -/
def buildingMatches (query : String) (r : Row) : Bool :=
  reSearch (lowerL query.data) (lowerL (buildingName r).data)

/-- The search path of lines 261-267: an empty query or the placeholder
"선택하세요" never reaches the filter (the `if` gate fails), otherwise
the rows whose building name matches are kept in dataset order. -/
def matchRows (rows : List Row) (query : String) : List Row :=
  if query = "" ∨ query = "선택하세요" then []
  else rows.filter (buildingMatches query)

/-! ## Aggregator (line 276)

`avg_values = building_data.select_dtypes(include='number').mean()`:
per-column arithmetic mean with pandas default `skipna=True`; an
all-absent (or empty) column yields NaN, modelled as `none`. -/

/-- The present (non-NaN) readings of one pollutant column over a row
subset, in row order. -/
def presentValues (rows : List Row) (key : String) : List ℚ :=
  rows.filterMap (fun r => (List.lookup key r.vals).join)

/-- `avg_values` for one pollutant column: mean of the present values,
absent when there are none. -/
def avg_values (rows : List Row) (key : String) : Option ℚ :=
  if (presentValues rows key).length = 0 then none
  else some ((presentValues rows key).sum / (presentValues rows key).length)

/-! ## Health-advisory scan (lines 325 and 409-414) -/

/-- `pollutants` (line 325): the six keys of the 2x3 grid. -/
def pollutants : List String :=
  ["이산화탄소", "폼알데하이드", "일산화탄소", "이산화질소", "라돈", "총휘발성유기화합물"]

/-- The keys scanned at line 410: `pollutants + ['미세먼지', '초미세먼지']`. -/
def scanKeys : List String :=
  pollutants ++ ["미세먼지", "초미세먼지"]

/-- `bad_items` (lines 409-414): the scanned keys whose status is
나쁨 (Bad) or 매우 나쁨 (VeryBad), each with its status and icon, built
over a total mapping of aggregate means. -/
def bad_items (avg : String → ℚ) : List (String × String × String) :=
  scanKeys.filterMap (fun pollutant =>
    if (get_air_quality_status (avg pollutant) pollutant).1 = "나쁨"
        ∨ (get_air_quality_status (avg pollutant) pollutant).1 = "매우 나쁨"
    then some (pollutant, (get_air_quality_status (avg pollutant) pollutant).1,
      (get_air_quality_status (avg pollutant) pollutant).2)
    else none)

/-! ## CSV export and reload (lines 82-88, 194, 526-532)

The delimited tabular format is modelled at the text level: cells
joined by commas into lines, lines joined by newlines, one header line
first (`index=False`, so no index column).  This is faithful to
`to_csv` / `read_csv` for cells free of the separator, quote and
newline characters (none of which occur in this dataset's cells); the
trailing newline `to_csv` emits and `read_csv` ignores is omitted, and
the byte encodings (euc-kr in, utf-8-sig out) are outside this text
model. -/

/-- Join chunks with a separator character. -/
def joinSep (sep : Char) : List (List Char) → List Char
  | [] => []
  | [x] => x
  | x :: y :: xs => x ++ sep :: joinSep sep (y :: xs)

/-- Split a character list at every separator (inverse of `joinSep` on
separator-free chunks). -/
def splitSep (sep : Char) : List Char → List (List Char)
  | [] => [[]]
  | c :: cs =>
    match splitSep sep cs with
    | [] => [[]]
    | x :: xs => if c == sep then [] :: x :: xs else (c :: x) :: xs

/-- The in-memory dataframe: header names and rows of textual cells,
in column order. -/
structure Dataset where
  header : List String
  rows : List (List String)
deriving DecidableEq

/-- One serialized CSV line. -/
def csvLine (cells : List String) : List Char :=
  joinSep ',' (cells.map String.data)

/-- `df.to_csv(index=False)` (line 526): header line then data lines. -/
def to_csv (d : Dataset) : String :=
  ⟨joinSep '\n' ((d.header :: d.rows).map csvLine)⟩

/-- `pd.read_csv` (lines 82-88): first line is the header, the rest
are rows. -/
def read_csv (s : String) : Option Dataset :=
  match (splitSep '\n' s.data).map (fun l => (splitSep ',' l).map (fun cs => (⟨cs⟩ : String))) with
  | [] => none
  | h :: rs => some ⟨h, rs⟩

/-- Index of the site-label column `측정지점`. -/
def siteIdx (d : Dataset) : Nat :=
  d.header.indexOf "측정지점"

/-- Line 194: `df['건물명'] = df['측정지점'].apply(extract_building_name)`
appends the derived building-name column to the dataframe; this is the
dataframe the download button at line 526 serializes. -/
def addBuildingCol (d : Dataset) : Dataset :=
  { header := d.header ++ ["건물명"]
  , rows := d.rows.map (fun r => r ++ [extract_building_name (r.getD (siteIdx d) "")]) }

/-- Every cell of the dataframe, header names included. -/
def cells (d : Dataset) : List String :=
  d.header ++ d.rows.flatten

/-- The cells are free of the separator characters, so the text-level
CSV round trip is exact. -/
def csvWF (d : Dataset) : Prop :=
  ∀ s ∈ cells d, ',' ∉ s.data ∧ '\n' ∉ s.data

instance (d : Dataset) : Decidable (csvWF d) := by
  unfold csvWF; infer_instance

/-! ## Helper lemmas -/

/-- A successful association-list lookup exhibits its key-value pair
as a member of the list. -/
lemma lookup_mem {α β : Type} [BEq α] [LawfulBEq α] {l : List (α × β)} {a : α} {b : β}
    (h : List.lookup a l = some b) : (a, b) ∈ l := by
  induction l with
  | nil => simp [List.lookup] at h
  | cons p t ih =>
    obtain ⟨k, w⟩ := p
    rw [List.lookup] at h
    rcases hk : (a == k) with _ | _
    · rw [hk] at h
      exact List.mem_cons_of_mem _ (ih h)
    · rw [hk] at h
      obtain rfl : w = b := by simpa using h
      obtain rfl : a = k := eq_of_beq hk
      exact List.mem_cons_self _ _

/-- Every entry of the threshold table has strictly ascending
thresholds. -/
lemma table_ascending :
    ∀ p ∈ AIR_QUALITY_STANDARDS, p.2.good < p.2.moderate ∧ p.2.moderate < p.2.bad := by
  decide

/-- Any standard returned by `lookupStd` has strictly ascending
thresholds. -/
lemma lookupStd_ascending (k : String) (std : Standard) (h : lookupStd k = some std) :
    std.good < std.moderate ∧ std.moderate < std.bad :=
  table_ascending (k, std) (lookup_mem h)

/-- Appending after elements all satisfying `p` does not change where
`dropWhile` stops. -/
lemma dropWhile_append_all {α : Type} {p : α → Bool} {l r : List α}
    (h : ∀ c ∈ l, p c = true) : (l ++ r).dropWhile p = r.dropWhile p := by
  induction l with
  | nil => rfl
  | cons c t ih =>
    rw [List.cons_append, List.dropWhile_cons, if_pos (h c (List.mem_cons_self c t))]
    exact ih (fun x hx => h x (List.mem_cons_of_mem c hx))

/-- When the input splits around its last hyphen, `rsplit('-', 1)[0]`
returns exactly the part before it. -/
lemma rsplitPrefixL_split (a b : List Char) (hb : '-' ∉ b) :
    rsplitPrefixL (a ++ '-' :: b) = a := by
  have hall : ∀ c ∈ b.reverse, (c != '-') = true := by
    intro c hc
    rw [List.mem_reverse] at hc
    simp only [bne_iff_ne, ne_eq]
    intro e
    rw [e] at hc
    exact hb hc
  unfold rsplitPrefixL
  have hrev : (a ++ '-' :: b).reverse = b.reverse ++ '-' :: a.reverse := by
    simp
  rw [hrev, dropWhile_append_all hall, List.dropWhile_cons]
  simp

/-- Without a hyphen, `rsplit('-', 1)[0]` returns the whole input. -/
lemma rsplitPrefixL_no_sep (l : List Char) (h : '-' ∉ l) : rsplitPrefixL l = l := by
  have hall : ∀ c ∈ l.reverse, (c != '-') = true := by
    intro c hc
    rw [List.mem_reverse] at hc
    simp only [bne_iff_ne, ne_eq]
    intro e
    rw [e] at hc
    exact h hc
  unfold rsplitPrefixL
  rw [List.dropWhile_eq_nil_iff.mpr hall]

/-- `stripL` is right-trimming composed with left-trimming. -/
lemma stripL_eq (l : List Char) :
    stripL l = List.rdropWhile Char.isWhitespace (l.dropWhile Char.isWhitespace) := rfl

/-- Stripping returns a contiguous segment of the input. -/
lemma stripL_part (l : List Char) : stripL l <:+: l := by
  rw [stripL_eq]
  exact (List.rdropWhile_prefix _ _).isInfix.trans
    (List.dropWhile_suffix Char.isWhitespace).isInfix

/-- Stripping yields the empty list exactly when everything is
whitespace. -/
lemma stripL_eq_nil_iff (l : List Char) :
    stripL l = [] ↔ ∀ c ∈ l, c.isWhitespace := by
  rw [stripL_eq, List.rdropWhile_eq_nil_iff]
  constructor
  · intro h c hc
    by_contra hcw
    have h1 : l.dropWhile Char.isWhitespace ≠ [] := by
      rw [Ne, List.dropWhile_eq_nil_iff]
      push_neg
      exact ⟨c, hc, by simpa using hcw⟩
    have h2 := List.head_dropWhile_not Char.isWhitespace l h1
    have h3 := h _ (List.head_mem h1)
    simp [h3] at h2
  · intro h x hx
    exact h x ((List.dropWhile_suffix Char.isWhitespace).sublist.subset hx)

/-- `rsplit('-', 1)[0]` is a prefix of its input. -/
lemma rsplitPrefixL_front (l : List Char) : rsplitPrefixL l <+: l := by
  unfold rsplitPrefixL
  cases hd : l.reverse.dropWhile (fun c => c != '-') with
  | nil => exact List.prefix_refl l
  | cons c rest =>
    have hsuf : c :: rest <:+ l.reverse := hd ▸ List.dropWhile_suffix _
    obtain ⟨t, ht⟩ := hsuf
    exact ⟨c :: t.reverse, by rw [← List.reverse_reverse l, ← ht]; simp⟩

/-- Lower-casing never introduces a regex metacharacter: A-Z map to
a-z and every other character is fixed. -/
lemma isRegexMeta_toLower {c : Char} (h : isRegexMeta c = false) :
    isRegexMeta c.toLower = false := by
  by_cases hc : 65 ≤ c.toNat ∧ c.toNat ≤ 90
  · have hl : c.toLower = Char.ofNat (c.toNat + 32) := by
      simp [Char.toLower, hc]
    rw [hl]
    obtain ⟨h1, h2⟩ := hc
    generalize c.toNat = n at h1 h2 ⊢
    interval_cases n <;> decide
  · have hl : c.toLower = c := by
      simp [Char.toLower, hc]
    rw [hl]
    exact h

/-- A metacharacter-free pattern stays metacharacter-free after
lower-casing. -/
lemma lowerL_meta_free {l : List Char} (h : ∀ c ∈ l, isRegexMeta c = false) :
    ∀ c ∈ lowerL l, isRegexMeta c = false := by
  intro c hc
  rw [lowerL, List.mem_map] at hc
  obtain ⟨a, ha, rfl⟩ := hc
  exact isRegexMeta_toLower (h a ha)

/-- For a metacharacter-free pattern, anchored regex matching is
list-prefix matching. -/
lemma matchAt_prefix_iff (ps : List Char) :
    ∀ cs, (∀ c ∈ ps, isRegexMeta c = false) → (matchAt ps cs = true ↔ ps <+: cs) := by
  induction ps with
  | nil =>
    intro cs hm
    simp [matchAt]
  | cons p pt ih =>
    intro cs hm
    cases cs with
    | nil => simp [matchAt]
    | cons c ct =>
      have hpd : p ≠ '.' := by
        intro e
        have h0 := hm p (List.mem_cons_self p pt)
        rw [e] at h0
        exact absurd h0 (by decide)
      have hp : (p == '.') = false := beq_eq_false_iff_ne.mpr hpd
      rw [show matchAt (p :: pt) (c :: ct) = ((p == '.' || p == c) && matchAt pt ct) from rfl]
      rw [hp, Bool.false_or, Bool.and_eq_true, beq_iff_eq,
        ih ct (fun x hx => hm x (List.mem_cons_of_mem p hx)), List.cons_prefix_cons]

/-- For a metacharacter-free pattern, `re.search` is substring
(list-infix) containment. -/
lemma reSearch_infix_iff (ps cs : List Char) (hm : ∀ c ∈ ps, isRegexMeta c = false) :
    reSearch ps cs = true ↔ ps <:+: cs := by
  induction cs with
  | nil =>
    rw [show reSearch ps [] = matchAt ps [] from rfl, matchAt_prefix_iff ps [] hm]
    simp
  | cons c ct ih =>
    rw [show reSearch ps (c :: ct) = (matchAt ps (c :: ct) || reSearch ps ct) from rfl,
      Bool.or_eq_true, matchAt_prefix_iff ps (c :: ct) hm, ih, List.infix_cons_iff]

/-! ## Claim theorems -/

/-- C1: for every recognized pollutant key and every numeric value,
classification is by inclusive upper bounds — value ≤ goodMax gives
좋음 (Good), goodMax < value ≤ moderateMax gives 보통 (Moderate),
moderateMax < value ≤ badMax gives 나쁨 (Bad), and value > badMax gives
매우 나쁨 (VeryBad); a value exactly equal to a threshold therefore
lands in the lower (better) tier. -/
theorem classify_tiers (k : String) (std : Standard) (h : lookupStd k = some std) (v : ℚ) :
    (v ≤ std.good → (get_air_quality_status v k).1 = "좋음")
    ∧ (std.good < v → v ≤ std.moderate → (get_air_quality_status v k).1 = "보통")
    ∧ (std.moderate < v → v ≤ std.bad → (get_air_quality_status v k).1 = "나쁨")
    ∧ (std.bad < v → (get_air_quality_status v k).1 = "매우 나쁨") := by
  obtain ⟨hgm, hmb⟩ := lookupStd_ascending k std h
  have hg : get_air_quality_status v k =
      if v ≤ std.good then ("좋음", "🟢")
      else if v ≤ std.moderate then ("보통", "🟡")
      else if v ≤ std.bad then ("나쁨", "🟠")
      else ("매우 나쁨", "🔴") := by
    simp [get_air_quality_status, h]
  refine ⟨fun h1 => ?_, fun h1 h2 => ?_, fun h1 h2 => ?_, fun h1 => ?_⟩
  · rw [hg, if_pos h1]
  · rw [hg, if_neg (not_le.mpr h1), if_pos h2]
  · rw [hg, if_neg (not_le.mpr (by linarith)), if_neg (not_le.mpr h1), if_pos h2]
  · rw [hg, if_neg (not_le.mpr (by linarith)), if_neg (not_le.mpr (by linarith)),
        if_neg (not_le.mpr h1)]

/-- Witness for C1 at the PM10 key and its three thresholds. -/
theorem classify_tiers_witness :
    (get_air_quality_status 30 "미세먼지").1 = "좋음"
    ∧ (get_air_quality_status 80 "미세먼지").1 = "보통"
    ∧ (get_air_quality_status 150 "미세먼지").1 = "나쁨"
    ∧ (get_air_quality_status 151 "미세먼지").1 = "매우 나쁨" := by
  have h := classify_tiers "미세먼지" ⟨"μg/m³", 30, 80, 150, "미세먼지(PM10)"⟩ rfl
  exact ⟨(h 30).1 (by norm_num), (h 80).2.1 (by norm_num) (by norm_num),
         (h 150).2.2.1 (by norm_num) (by norm_num), (h 151).2.2.2 (by norm_num)⟩

/-- C5: the static threshold table holds exactly the spec's values for
the 8 pollutant keys, and each key's three thresholds are strictly
ascending. -/
theorem standards_match_spec :
    AIR_QUALITY_STANDARDS.map (fun p => (p.1, (p.2.good, p.2.moderate, p.2.bad)))
      = specThresholds
    ∧ ∀ p ∈ AIR_QUALITY_STANDARDS, p.2.good < p.2.moderate ∧ p.2.moderate < p.2.bad := by
  exact ⟨by decide, by decide⟩

/-- Witness for C5 at the NO2 entry. -/
theorem standards_match_spec_witness :
    mkRat 3 100 < mkRat 5 100 ∧ mkRat 5 100 < mkRat 10 100 :=
  standards_match_spec.2 ("이산화질소", ⟨"ppm", mkRat 3 100, mkRat 5 100, mkRat 10 100, "이산화질소(NO₂)"⟩)
    (by decide)

/-- C6: for an unrecognized pollutant key, classification returns the
distinct Unknown pair ("알 수 없음", "⚪") regardless of the value and
does not fail; 알 수 없음 is none of the four ranked tiers. -/
theorem classify_unknown (k : String) (h : lookupStd k = none) (v : ℚ) :
    get_air_quality_status v k = ("알 수 없음", "⚪")
    ∧ ("알 수 없음" : String) ∉ ["좋음", "보통", "나쁨", "매우 나쁨"] := by
  refine ⟨?_, by decide⟩
  simp [get_air_quality_status, h]

/-- Witness for C6 at the unrecognized key "PM10" (the table is keyed
by Korean names, so the English label is unrecognized). -/
theorem classify_unknown_witness :
    get_air_quality_status 0 "PM10" = ("알 수 없음", "⚪") :=
  (classify_unknown "PM10" rfl 0).1

/-- C4: `extract_building_name` splits on the last hyphen and returns
the prefix with surrounding whitespace trimmed; with no hyphen it
returns the entire trimmed string; being a total Lean function of an
arbitrary string, it never fails on any input. -/
theorem extract_building_name_spec (a b : String) (hb : '-' ∉ b.data) :
    extract_building_name (a ++ "-" ++ b) = ⟨stripL a.data⟩
    ∧ ∀ s : String, '-' ∉ s.data → extract_building_name s = ⟨stripL s.data⟩ := by
  constructor
  · show (⟨extractL (a ++ "-" ++ b).data⟩ : String) = ⟨stripL a.data⟩
    have hdata : (a ++ "-" ++ b).data = a.data ++ '-' :: b.data := by
      simp [String.data_append]
    rw [hdata]
    unfold extractL
    rw [rsplitPrefixL_split a.data b.data hb]
  · intro s hs
    show (⟨extractL s.data⟩ : String) = ⟨stripL s.data⟩
    unfold extractL
    rw [rsplitPrefixL_no_sep s.data hs]

/-- Witness for C4: the spec's three examples. -/
theorem extract_building_name_spec_witness :
    extract_building_name "A-B-C" = "A-B"
    ∧ extract_building_name "Central Hall-Lobby" = "Central Hall"
    ∧ extract_building_name "NoSeparatorHere" = "NoSeparatorHere" := by
  obtain ⟨h1, -⟩ := extract_building_name_spec "A-B" "C" (by decide)
  obtain ⟨h2, hno⟩ := extract_building_name_spec "Central Hall" "Lobby" (by decide)
  refine ⟨?_, ?_, ?_⟩
  · rw [(by decide : ("A-B-C" : String) = "A-B" ++ "-" ++ "C"), h1]
    decide
  · rw [(by decide : ("Central Hall-Lobby" : String) = "Central Hall" ++ "-" ++ "Lobby"), h2]
    decide
  · rw [hno "NoSeparatorHere" (by decide)]
    decide

/-- C8 counterexample: on the site label "-Lobby" the derived building
name is the empty string, so the derived buildingName is not non-empty
for every site string. -/
theorem buildingName_nonempty_cex : extract_building_name "-Lobby" = "" := by
  decide

/-- C8 (amended): the derived building name is always a contiguous
substring of the site label (the whitespace-trimmed segment before the
last hyphen), and it is non-empty whenever that pre-separator segment
contains a non-whitespace character. -/
theorem buildingName_invariant (s : String)
    (h : ∃ c ∈ rsplitPrefixL s.data, ¬ c.isWhitespace) :
    (extract_building_name s).data <:+: s.data
    ∧ extract_building_name s ≠ "" := by
  constructor
  · show extractL s.data <:+: s.data
    exact (stripL_part _).trans (rsplitPrefixL_front s.data).isInfix
  · intro he
    have hdat : extractL s.data = [] := congrArg String.data he
    unfold extractL at hdat
    obtain ⟨c, hc, hcw⟩ := h
    exact hcw ((stripL_eq_nil_iff _).mp hdat c hc)

/-- Witness for C8 at the site label "Central Hall-Lobby". -/
theorem buildingName_invariant_witness :
    (extract_building_name "Central Hall-Lobby").data <:+: ("Central Hall-Lobby" : String).data
    ∧ extract_building_name "Central Hall-Lobby" ≠ "" :=
  buildingName_invariant "Central Hall-Lobby" (by decide)

/-- C2 counterexample: the query "." (a regex wildcard) causes the
matcher to return the row for building "Hall" even though "Hall" does
not contain "." as a substring — `str.contains` treats the query as a
regular expression, not a literal substring. -/
theorem match_substring_cex :
    matchRows [⟨"Hall-1", []⟩] "." = [⟨"Hall-1", []⟩]
    ∧ ¬ lowerL (".".data) <:+: lowerL (buildingName ⟨"Hall-1", []⟩).data := by
  constructor
  · decide
  · intro hinf
    have hm : ('.' : Char) ∈ lowerL (buildingName ⟨"Hall-1", []⟩).data :=
      hinf.sublist.subset (by decide)
    exact absurd hm (by decide)

/-- C2 (amended): for every dataset and every non-empty,
non-placeholder query containing no regex metacharacters, match
returns exactly the rows whose derived building name contains the
query as a case-insensitive substring (matched against the building
name, not the raw site label); a query shared by several building
names therefore returns all their rows together. -/
theorem match_substring (rows : List Row) (q : String)
    (hq1 : q ≠ "") (hq2 : q ≠ "선택하세요")
    (hmeta : ∀ c ∈ q.data, isRegexMeta c = false) (r : Row) :
    r ∈ matchRows rows q ↔ r ∈ rows ∧ lowerL q.data <:+: lowerL (buildingName r).data := by
  unfold matchRows
  rw [if_neg (by simp [hq1, hq2])]
  simp only [List.mem_filter, buildingMatches,
    reSearch_infix_iff _ _ (lowerL_meta_free hmeta)]

/-- Witness for C2: the spec's example — querying "city" returns the
rows of both "City Hall Annex" and "City Library". -/
theorem match_substring_witness :
    (⟨"City Hall Annex-1", []⟩ : Row)
      ∈ matchRows [⟨"City Hall Annex-1", []⟩, ⟨"City Library-2", []⟩] "city"
    ∧ (⟨"City Library-2", []⟩ : Row)
      ∈ matchRows [⟨"City Hall Annex-1", []⟩, ⟨"City Library-2", []⟩] "city" :=
  ⟨(match_substring _ "city" (by decide) (by decide) (by decide) _).mpr
      ⟨by decide, by decide⟩,
   (match_substring _ "city" (by decide) (by decide) (by decide) _).mpr
      ⟨by decide, by decide⟩⟩

/-- C7: the empty query returns an empty sequence (the search gate
fails before any filtering), and a query matching no building returns
an empty sequence; both are ordinary values, not errors. -/
theorem match_no_result (rows : List Row) (q : String)
    (hnone : ∀ r ∈ rows, buildingMatches q r = false) :
    matchRows rows "" = [] ∧ matchRows rows q = [] := by
  constructor
  · simp [matchRows]
  · unfold matchRows
    split
    · rfl
    · exact List.filter_eq_nil_iff.mpr (fun a ha => by simp [hnone a ha])

/-- Witness for C7 on a one-row dataset and the query "zzz". -/
theorem match_no_result_witness :
    matchRows [⟨"Hall-1", []⟩] "" = [] ∧ matchRows [⟨"Hall-1", []⟩] "zzz" = [] :=
  match_no_result [⟨"Hall-1", []⟩] "zzz" (by decide)

/-- C3: for each pollutant key, `avg_values` is the arithmetic mean of
the present values of that column (absent cells are excluded, never
counted as zero): the result is absent exactly when no contributing
row has a present value, any returned mean m satisfies
m * count = sum over the present values, and the empty row sequence
yields absent for every key without error. -/
theorem avg_values_mean (rows : List Row) (key : String) :
    ((avg_values rows key).isNone ↔ presentValues rows key = [])
    ∧ (∀ m, avg_values rows key = some m →
        m * (presentValues rows key).length = (presentValues rows key).sum)
    ∧ avg_values ([] : List Row) key = none := by
  refine ⟨?_, ?_, rfl⟩
  · by_cases h : (presentValues rows key).length = 0
    · simp [avg_values, h, List.length_eq_zero.mp h]
    · simp only [avg_values, if_neg h, Option.isNone_some, Bool.false_eq_true, false_iff]
      intro e
      exact h (by rw [e]; rfl)
  · intro m hm
    by_cases h : (presentValues rows key).length = 0
    · simp only [avg_values, if_pos h] at hm
      exact absurd hm (by simp)
    · simp only [avg_values, if_neg h] at hm
      have hm2 := Option.some.inj hm
      have hne : ((presentValues rows key).length : ℚ) ≠ 0 := Nat.cast_ne_zero.mpr h
      rw [← hm2, div_mul_cancel₀ _ hne]

/-- Witness for C3: the spec's example rows — PM10 readings 10, 20 and
an absent cell average to 15, and the empty input gives absent. -/
theorem avg_values_mean_witness :
    avg_values [⟨"A-1", [("미세먼지", some 10)]⟩, ⟨"A-2", [("미세먼지", some 20)]⟩,
        ⟨"A-3", [("미세먼지", none)]⟩] "미세먼지" = some 15
    ∧ avg_values ([] : List Row) "미세먼지" = none := by
  refine ⟨?_, (avg_values_mean [] "미세먼지").2.2⟩
  have hp : presentValues [⟨"A-1", [("미세먼지", some 10)]⟩, ⟨"A-2", [("미세먼지", some 20)]⟩,
      ⟨"A-3", [("미세먼지", none)]⟩] "미세먼지" = [10, 20] := by decide
  have hagg := (avg_values_mean [⟨"A-1", [("미세먼지", some 10)]⟩,
      ⟨"A-2", [("미세먼지", some 20)]⟩, ⟨"A-3", [("미세먼지", none)]⟩] "미세먼지").1
  simp only [avg_values, hp]
  norm_num [List.sum_cons]

/-- C10: the health-advisory scan visits each of the 8 recognized
pollutant keys exactly once (the six grid keys plus the two PM keys,
no duplicates), and its result lists exactly the keys whose aggregate
mean classifies as 나쁨 (Bad) or 매우 나쁨 (VeryBad). -/
theorem bad_items_scan (avg : String → ℚ) :
    scanKeys.Nodup
    ∧ scanKeys.Perm (AIR_QUALITY_STANDARDS.map Prod.fst)
    ∧ ∀ k, (k ∈ (bad_items avg).map (fun t => t.1)
        ↔ k ∈ scanKeys ∧ ((get_air_quality_status (avg k) k).1 = "나쁨"
            ∨ (get_air_quality_status (avg k) k).1 = "매우 나쁨")) := by
  refine ⟨by decide, by decide, fun k => ?_⟩
  constructor
  · intro hk
    rw [List.mem_map] at hk
    obtain ⟨t, ht, rfl⟩ := hk
    unfold bad_items at ht
    rw [List.mem_filterMap] at ht
    obtain ⟨a, ha, hfa⟩ := ht
    by_cases hcond : ((get_air_quality_status (avg a) a).1 = "나쁨"
        ∨ (get_air_quality_status (avg a) a).1 = "매우 나쁨")
    · rw [if_pos hcond] at hfa
      obtain rfl := Option.some.inj hfa
      exact ⟨ha, hcond⟩
    · rw [if_neg hcond] at hfa
      exact absurd hfa (by simp)
  · rintro ⟨hk, hcond⟩
    rw [List.mem_map]
    refine ⟨(k, (get_air_quality_status (avg k) k).1, (get_air_quality_status (avg k) k).2),
      ?_, rfl⟩
    unfold bad_items
    rw [List.mem_filterMap]
    exact ⟨k, hk, by rw [if_pos hcond]⟩

/-- Witness for C10: with every aggregate mean at 1000, the radon key
(mean far above its badMax of 200) appears in the advisory list. -/
theorem bad_items_scan_witness :
    "라돈" ∈ (bad_items (fun _ => 1000)).map (fun t => t.1) :=
  ((bad_items_scan (fun _ => 1000)).2.2 "라돈").mpr ⟨by decide, Or.inr (by decide)⟩

/-- `splitSep` never returns the empty list of chunks. -/
lemma splitSep_ne_nil (sep : Char) (l : List Char) : splitSep sep l ≠ [] := by
  induction l with
  | nil => simp [splitSep]
  | cons c cs ih =>
    rw [show splitSep sep (c :: cs) = (match splitSep sep cs with
      | [] => [[]]
      | x :: xs => if c == sep then [] :: x :: xs else (c :: x) :: xs) from rfl]
    rcases hs : splitSep sep cs with _ | ⟨a, b⟩
    · simp
    · dsimp only
      split <;> simp

/-- Splitting a separator-free chunk returns just that chunk. -/
lemma splitSep_no_sep (sep : Char) (x : List Char) (h : sep ∉ x) :
    splitSep sep x = [x] := by
  induction x with
  | nil => rfl
  | cons c cs ih =>
    have hc : c ≠ sep := fun e => h (e ▸ List.mem_cons_self c cs)
    rw [show splitSep sep (c :: cs) = (match splitSep sep cs with
      | [] => [[]]
      | x :: xs => if c == sep then [] :: x :: xs else (c :: x) :: xs) from rfl]
    rw [ih (fun hm => h (List.mem_cons_of_mem c hm))]
    simp [hc]

/-- Splitting after a leading separator produces a leading empty chunk. -/
lemma splitSep_cons_sep (sep : Char) (rest : List Char) :
    splitSep sep (sep :: rest) = [] :: splitSep sep rest := by
  rw [show splitSep sep (sep :: rest) = (match splitSep sep rest with
    | [] => [[]]
    | x :: xs => if sep == sep then [] :: x :: xs else (sep :: x) :: xs) from rfl]
  rcases hs : splitSep sep rest with _ | ⟨a, b⟩
  · exact absurd hs (splitSep_ne_nil sep rest)
  · simp

/-- Splitting peels off one separator-free chunk before a separator. -/
lemma splitSep_append_sep (sep : Char) (x rest : List Char) (h : sep ∉ x) :
    splitSep sep (x ++ sep :: rest) = x :: splitSep sep rest := by
  induction x with
  | nil => simpa using splitSep_cons_sep sep rest
  | cons c cs ih =>
    have hc : c ≠ sep := fun e => h (e ▸ List.mem_cons_self c cs)
    have ih2 := ih (fun hm => h (List.mem_cons_of_mem c hm))
    rw [List.cons_append]
    rw [show splitSep sep (c :: (cs ++ sep :: rest)) = (match splitSep sep (cs ++ sep :: rest) with
      | [] => [[]]
      | x :: xs => if c == sep then [] :: x :: xs else (c :: x) :: xs) from rfl]
    rw [ih2]
    simp [hc]

/-- `splitSep` inverts `joinSep` on a nonempty list of separator-free
chunks. -/
lemma splitSep_joinSep (sep : Char) (xss : List (List Char)) (hne : xss ≠ [])
    (hsep : ∀ xs ∈ xss, sep ∉ xs) :
    splitSep sep (joinSep sep xss) = xss := by
  induction xss with
  | nil => exact absurd rfl hne
  | cons x t ih =>
    cases t with
    | nil => exact splitSep_no_sep sep x (hsep x (List.mem_cons_self x []))
    | cons y t2 =>
      rw [show joinSep sep (x :: y :: t2) = x ++ sep :: joinSep sep (y :: t2) from rfl]
      rw [splitSep_append_sep sep x _ (hsep x (List.mem_cons_self x (y :: t2)))]
      rw [ih (by simp) (fun xs hxs => hsep xs (List.mem_cons_of_mem x hxs))]

/-- Every character of a join is the separator or comes from a chunk. -/
lemma mem_joinSep {c sep : Char} {xss : List (List Char)} (h : c ∈ joinSep sep xss) :
    c = sep ∨ ∃ xs ∈ xss, c ∈ xs := by
  induction xss with
  | nil => simp [joinSep] at h
  | cons x t ih =>
    cases t with
    | nil => exact Or.inr ⟨x, by simp, by simpa [joinSep] using h⟩
    | cons y t2 =>
      rw [show joinSep sep (x :: y :: t2) = x ++ sep :: joinSep sep (y :: t2) from rfl] at h
      rw [List.mem_append] at h
      rcases h with h | h
      · exact Or.inr ⟨x, by simp, h⟩
      · rw [List.mem_cons] at h
        rcases h with h | h
        · exact Or.inl h
        · rcases ih h with h2 | ⟨xs, hxs, hc⟩
          · exact Or.inl h2
          · exact Or.inr ⟨xs, List.mem_cons_of_mem _ hxs, hc⟩

/-- Re-parsing one serialized line recovers its cells. -/
lemma parse_csvLine (cells : List String) (hc : cells ≠ [])
    (hwf : ∀ s ∈ cells, ',' ∉ s.data) :
    (splitSep ',' (csvLine cells)).map (fun cs => (⟨cs⟩ : String)) = cells := by
  unfold csvLine
  rw [splitSep_joinSep ',' _ (by simpa using hc) ?hsep]
  case hsep =>
    intro xs hxs
    rw [List.mem_map] at hxs
    obtain ⟨s, hsin, rfl⟩ := hxs
    exact hwf s hsin
  rw [List.map_map]
  have hid : ((fun cs => (⟨cs⟩ : String)) ∘ String.data) = id := funext fun s => rfl
  rw [hid, List.map_id]

/-- A serialized line contains no newline when its cells contain none. -/
lemma csvLine_no_newline (cells : List String)
    (hwf : ∀ s ∈ cells, '\n' ∉ s.data) :
    '\n' ∉ csvLine cells := by
  intro hmem
  rcases mem_joinSep hmem with h | ⟨xs, hxs, hc⟩
  · exact absurd h (by decide)
  · rw [List.mem_map] at hxs
    obtain ⟨s, hsin, rfl⟩ := hxs
    exact hwf s hsin hc

/-- The derived building-name column only reuses characters of the
site cell, so it stays free of the CSV separator characters. -/
lemma csvWF_addBuildingCol {d : Dataset} (h : csvWF d) : csvWF (addBuildingCol d) := by
  intro s hs
  have hsub : ∀ t : String, (extract_building_name t).data ⊆ t.data := by
    intro t
    exact ((stripL_part _).trans (rsplitPrefixL_front t.data).isInfix).sublist.subset
  have hcell : ∀ r : List String, r.getD (siteIdx d) "" ∈ r ∨ r.getD (siteIdx d) "" = "" := by
    intro r
    rw [List.getD_eq_getElem?_getD]
    rcases hg : r[siteIdx d]? with _ | x
    · simp
    · exact Or.inl (by simpa using List.getElem?_mem hg)
  unfold cells addBuildingCol at hs
  simp only [List.mem_append, List.mem_flatten, List.mem_map] at hs
  rcases hs with (hs | hs) | ⟨part, ⟨r, hr, hpart⟩, hsin⟩
  · exact h s (List.mem_append_left _ hs)
  · rw [List.mem_singleton] at hs
    subst hs
    exact ⟨by decide, by decide⟩
  · subst hpart
    rw [List.mem_append] at hsin
    rcases hsin with hsin | hsin
    · exact h s (List.mem_append_right _ (List.mem_flatten.mpr ⟨r, hr, hsin⟩))
    · rw [List.mem_singleton] at hsin
      subst hsin
      rcases hcell r with hin | hempty
      · obtain ⟨hwf1, hwf2⟩ := h _ (List.mem_append_right _ (List.mem_flatten.mpr ⟨r, hr, hin⟩))
        exact ⟨fun hm => hwf1 (hsub _ hm), fun hm => hwf2 (hsub _ hm)⟩
      · rw [hempty]
        exact ⟨by decide, by decide⟩

/-- C9 (amended): serializing the dataframe (which carries the derived
건물명 column appended at load time) and re-parsing it reproduces it
exactly, so every original column's values round-trip row-for-row
unchanged (dropping the appended last column recovers the input rows);
the header is the input header plus the appended 건물명 column, hence
not identical to the input file's. -/
theorem export_reload (d : Dataset) (hwf : csvWF d) :
    read_csv (to_csv (addBuildingCol d)) = some (addBuildingCol d)
    ∧ (addBuildingCol d).header = d.header ++ ["건물명"]
    ∧ (addBuildingCol d).rows.map List.dropLast = d.rows := by
  have hwf2 := csvWF_addBuildingCol hwf
  refine ⟨?_, rfl, ?_⟩
  · have hhdr_wf : ∀ s ∈ (addBuildingCol d).header, ',' ∉ s.data ∧ '\n' ∉ s.data :=
      fun s hs => hwf2 s (List.mem_append_left _ hs)
    have hrow_wf : ∀ r ∈ (addBuildingCol d).rows, ∀ s ∈ r, ',' ∉ s.data ∧ '\n' ∉ s.data :=
      fun r hr s hs => hwf2 s (List.mem_append_right _ (List.mem_flatten.mpr ⟨r, hr, hs⟩))
    have hhdr_ne : (addBuildingCol d).header ≠ [] := by simp [addBuildingCol]
    have hrow_ne : ∀ r ∈ (addBuildingCol d).rows, r ≠ [] := by
      intro r hr
      simp only [addBuildingCol, List.mem_map] at hr
      obtain ⟨r0, -, rfl⟩ := hr
      simp
    have hnl : ∀ l ∈ ((addBuildingCol d).header :: (addBuildingCol d).rows).map csvLine,
        '\n' ∉ l := by
      intro l hl
      rw [List.mem_map] at hl
      obtain ⟨cs, hcs, rfl⟩ := hl
      rw [List.mem_cons] at hcs
      rcases hcs with rfl | hcs
      · exact csvLine_no_newline _ (fun s hs => (hhdr_wf s hs).2)
      · exact csvLine_no_newline _ (fun s hs => (hrow_wf _ hcs s hs).2)
    show (match (splitSep '\n'
        (joinSep '\n' (((addBuildingCol d).header :: (addBuildingCol d).rows).map csvLine))).map
        (fun l => (splitSep ',' l).map (fun cs => (⟨cs⟩ : String))) with
      | [] => none
      | h :: rs => some ⟨h, rs⟩) = some (addBuildingCol d)
    rw [splitSep_joinSep '\n' _ (by simp) hnl]
    have hmap : (((addBuildingCol d).header :: (addBuildingCol d).rows).map csvLine).map
        (fun l => (splitSep ',' l).map (fun cs => (⟨cs⟩ : String)))
        = (addBuildingCol d).header :: (addBuildingCol d).rows := by
      rw [List.map_cons, List.map_cons]
      congr 1
      · exact parse_csvLine _ hhdr_ne (fun s hs => (hhdr_wf s hs).1)
      · rw [List.map_map]
        exact (List.map_congr_left (fun r hr =>
          parse_csvLine r (hrow_ne r hr) (fun s hs => (hrow_wf r hr s hs).1))).trans (by simp)
    rw [hmap]
  · show (d.rows.map (fun r => r ++ [extract_building_name (r.getD (siteIdx d) "")])).map
        List.dropLast = d.rows
    rw [List.map_map]
    have hdl : ∀ r ∈ d.rows,
        (List.dropLast ∘ fun r => r ++ [extract_building_name (r.getD (siteIdx d) "")]) r = r := by
      intro r hr
      simp
    exact (List.map_congr_left hdl).trans (by simp)

/-- Witness for C9 on a two-column, one-row dataset. -/
theorem export_reload_witness :
    read_csv (to_csv (addBuildingCol ⟨["측정지점", "미세먼지"], [["A-1", "10"]]⟩))
      = some (addBuildingCol ⟨["측정지점", "미세먼지"], [["A-1", "10"]]⟩) :=
  (export_reload ⟨["측정지점", "미세먼지"], [["A-1", "10"]]⟩ (by decide)).1

/-- C9 counterexample: the download button serializes the dataframe
after the derived 건물명 column was appended, so the serialized output
differs from the input file's serialization and its header names are
not those of the input. -/
theorem export_not_identical_cex :
    to_csv (addBuildingCol ⟨["측정지점", "미세먼지"], [["A-1", "10"]]⟩)
      ≠ to_csv ⟨["측정지점", "미세먼지"], [["A-1", "10"]]⟩
    ∧ (addBuildingCol ⟨["측정지점", "미세먼지"], [["A-1", "10"]]⟩).header
      ≠ (⟨["측정지점", "미세먼지"], [["A-1", "10"]]⟩ : Dataset).header := by
  constructor <;> decide

end AirQuality
